import Mathlib

/-!
# Verification of shortscale-rs

Shallow embedding of the `shortscale` crate (jldec/shortscale-rs), which
converts unsigned 64-bit integers into English words using the short scale.

The embedding models:
* `Shortscale` — the canonical module `src/shortscale.rs`: the String-builder
  implementation `shortscale`, the Vec-builder `shortscale_vec_push`, the
  Vec-concatenation `shortscale_vec_concat`, the String-join
  `shortscale_string_join`, and the shared word table `map`.
* `Lib` — the earlier implementation in `src/lib.rs` with its own word table.

Rust `String`s are Lean `String`s, Rust `Vec<&'static str>` is `List String`,
and machine integers are `Nat` (all arithmetic in the source is division and
remainder on in-range values, so no wrap-around can occur).
-/

set_option maxRecDepth 16384

namespace Shortscale

/-- Word table of `src/shortscale.rs` (`fn map`). -/
def map (num : Nat) : String :=
  match num with
  | 0 => "zero"
  | 1 => "one"
  | 2 => "two"
  | 3 => "three"
  | 4 => "four"
  | 5 => "five"
  | 6 => "six"
  | 7 => "seven"
  | 8 => "eight"
  | 9 => "nine"
  | 10 => "ten"
  | 11 => "eleven"
  | 12 => "twelve"
  | 13 => "thirteen"
  | 14 => "fourteen"
  | 15 => "fifteen"
  | 16 => "sixteen"
  | 17 => "seventeen"
  | 18 => "eighteen"
  | 19 => "nineteen"
  | 20 => "twenty"
  | 30 => "thirty"
  | 40 => "fourty"
  | 50 => "fifty"
  | 60 => "sixty"
  | 70 => "seventy"
  | 80 => "eighty"
  | 90 => "ninety"
  | 100 => "hundred"
  | 1000 => "thousand"
  | 1000000 => "million"
  | 1000000000 => "billion"
  | 1000000000000 => "trillion"
  | 1000000000000000 => "quadrillion"
  | _ => "(big number)"

/-- `fn push_word`: append a word to the builder, space-separated. -/
def push_word (s : String) (word : String) : String :=
  (if s.length > 0 then s ++ " " else s) ++ word

/-- `fn push_tens_and_units`. -/
def push_tens_and_units (s : String) (num : Nat) (and_word : Bool) : String :=
  let num := num % 100
  if num = 0 then s
  else
    let s := if and_word then push_word s "and" else s
    if 1 ≤ num ∧ num ≤ 20 then push_word s (map num)
    else
      let s := push_word s (map (num / 10 * 10))
      let num := num % 10
      if num = 0 then s else push_word s (map num)

/-- `fn push_hundreds`. -/
def push_hundreds (s : String) (num : Nat) : String :=
  let num := num / 100 % 10
  if num = 0 then s
  else push_word (push_word s (map num)) (map 100)

/-- `fn push_scale`. -/
def push_scale (s : String) (num : Nat) (thousands : Nat) : String :=
  let num := num / thousands % 1000
  if num = 0 then s
  else
    let s := push_hundreds s num
    let and_word : Bool := decide (num / 100 % 10 > 0)
    let s := push_tens_and_units s num and_word
    push_word s (map thousands)

/-- `pub fn shortscale`, the canonical String-builder implementation. -/
def shortscale (num : Nat) : String :=
  if num ≤ 20 ∨ num > 999999999999999999 then map num
  else
    let s := ""
    let s := push_scale s num 1000000000000000
    let s := push_scale s num 1000000000000
    let s := push_scale s num 1000000000
    let s := push_scale s num 1000000
    let s := push_scale s num 1000
    let s := push_hundreds s num
    let and_word : Bool := decide (s.length > 0)
    push_tens_and_units s num and_word

/-! ### Vec-builder variant (`shortscale_vec_push`) -/

/-- `fn vec_push_tens_and_units`. -/
def vec_push_tens_and_units (v : List String) (num : Nat) (and_word : Bool) :
    List String :=
  let num := num % 100
  if num = 0 then v
  else
    let v := if and_word then v ++ ["and"] else v
    if 1 ≤ num ∧ num ≤ 20 then v ++ [map num]
    else
      let v := v ++ [map (num / 10 * 10)]
      let num := num % 10
      if num = 0 then v else v ++ [map num]

/-- `fn vec_push_hundreds`. -/
def vec_push_hundreds (v : List String) (num : Nat) : List String :=
  let num := num / 100 % 10
  if num = 0 then v
  else v ++ [map num, map 100]

/-- `fn vec_push_scale`. -/
def vec_push_scale (v : List String) (num : Nat) (thousands : Nat) :
    List String :=
  let num := num / thousands % 1000
  if num = 0 then v
  else
    let v := vec_push_hundreds v num
    let and_word : Bool := decide (num / 100 % 10 > 0)
    let v := vec_push_tens_and_units v num and_word
    v ++ [map thousands]

/-- Rust `[&str]::join(sep)`: words interleaved with the separator. -/
def join_sep (sep : String) : List String → String
  | [] => ""
  | [w] => w
  | w :: ws => w ++ sep ++ join_sep sep ws

/-- `pub fn shortscale_vec_push`. -/
def shortscale_vec_push (num : Nat) : String :=
  if num ≤ 20 ∨ num > 999999999999999999 then map num
  else
    let v : List String := []
    let v := vec_push_scale v num 1000000000000000
    let v := vec_push_scale v num 1000000000000
    let v := vec_push_scale v num 1000000000
    let v := vec_push_scale v num 1000000
    let v := vec_push_scale v num 1000
    let v := vec_push_hundreds v num
    let and_word : Bool := decide (v.length > 0)
    let v := vec_push_tens_and_units v num and_word
    join_sep " " v

/-! ### Vec-concatenation variant (`shortscale_vec_concat`) -/

/-- `fn lookup`: 0 becomes the empty list, for composition with concat. -/
def lookup (num : Nat) : List String :=
  match num with
  | 0 => []
  | _ => [map num]

/-- `fn tens_and_units`. -/
def tens_and_units (num : Nat) : List String :=
  let num := num % 100
  if num ≤ 20 then lookup num
  else lookup (num / 10 * 10) ++ lookup (num % 10)

/-- `fn hundreds`. -/
def hundreds (num : Nat) : List String :=
  let num := num / 100 % 10
  if num = 0 then []
  else lookup num ++ lookup 100

/-- `fn concat_and`: concatenate two word lists separated by "and"
when both are non-empty. -/
def concat_and (v1 v2 : List String) : List String :=
  if v2.length = 0 then v1
  else if v1.length = 0 then v2
  else v1 ++ ["and"] ++ v2

/-- `fn one_to_999`. -/
def one_to_999 (num : Nat) : List String :=
  concat_and (hundreds num) (tens_and_units num)

/-- `fn scale`. -/
def scale (num : Nat) (thousands : Nat) : List String :=
  let num := num / thousands % 1000
  if num = 0 then []
  else one_to_999 num ++ lookup thousands

/-- `pub fn shortscale_vec_concat`. -/
def shortscale_vec_concat (num : Nat) : String :=
  if num ≤ 20 ∨ num > 999999999999999999 then map num
  else
    let vec :=
      (scale num 1000000000000000 ++ scale num 1000000000000 ++
        scale num 1000000000 ++ scale num 1000000 ++ scale num 1000 ++
        hundreds num)
    let vec := concat_and vec (tens_and_units num)
    join_sep " " vec

/-! ### String-join variant (`shortscale_string_join`) -/

/-- `fn join_words`: append `words` to `s` behind `sep`, skipping empties. -/
def join_words (s : String) (sep : String) (words : String) : String :=
  if words.length = 0 then s
  else if s.length = 0 then s ++ words
  else s ++ sep ++ words

/-- `fn lookup_word`: 0 becomes the empty string. -/
def lookup_word (num : Nat) : String :=
  match num with
  | 0 => ""
  | _ => map num

/-- `fn tens_and_units_words`. -/
def tens_and_units_words (num : Nat) : String :=
  let num := num % 100
  let tens := num / 10 * 10
  let units := num % 10
  if tens = 0 then lookup_word units
  else if tens = 10 then lookup_word num
  else if units = 0 then lookup_word tens
  else lookup_word tens ++ " " ++ lookup_word units

/-- `fn hundreds_words`. -/
def hundreds_words (num : Nat) : String :=
  let num := num / 100 % 10
  if num = 0 then lookup_word num
  else lookup_word num ++ " " ++ lookup_word 100

/-- `fn one_to_999_words`. -/
def one_to_999_words (num : Nat) : String :=
  let h := hundreds_words num
  let tu := tens_and_units_words num
  if h.length = 0 then tu
  else if tu.length = 0 then h
  else h ++ " and " ++ tu

/-- `fn scale_words`. -/
def scale_words (num : Nat) (thousands : Nat) : String :=
  let num := num / thousands % 1000
  if num = 0 then lookup_word num
  else one_to_999_words num ++ " " ++ lookup_word thousands

/-- `pub fn shortscale_string_join`. -/
def shortscale_string_join (num : Nat) : String :=
  if num ≤ 20 ∨ num > 999999999999999999 then map num
  else
    let s := ""
    let s := join_words s " " (scale_words num 1000000000000000)
    let s := join_words s " " (scale_words num 1000000000000)
    let s := join_words s " " (scale_words num 1000000000)
    let s := join_words s " " (scale_words num 1000000)
    let s := join_words s " " (scale_words num 1000)
    let s := join_words s " " (hundreds_words num)
    join_words s " and " (tens_and_units_words num)

/-- Modelled from the spec: `shortscale_string_writer` is declared by the
crate and exercised by `tests/test-shortscale.rs`, but its definition is not
among the provided source files.  The spec describes it as "a secondary
convenience form [that] accepts a caller-supplied mutable text buffer and
appends into it rather than allocating a fresh result — semantically
identical output, appended rather than returned fresh". -/
def shortscale_string_writer (s : String) (num : Nat) : String :=
  s ++ shortscale num

end Shortscale

namespace Lib

/-- Word table of `src/lib.rs` (`fn map`): note the spellings for 40 and 80
and the bare sentinel. -/
def map (num : Nat) : String :=
  match num with
  | 0 => "zero"
  | 1 => "one"
  | 2 => "two"
  | 3 => "three"
  | 4 => "four"
  | 5 => "five"
  | 6 => "six"
  | 7 => "seven"
  | 8 => "eight"
  | 9 => "nine"
  | 10 => "ten"
  | 11 => "eleven"
  | 12 => "twelve"
  | 13 => "thirteen"
  | 14 => "fourteen"
  | 15 => "fifteen"
  | 16 => "sixteen"
  | 17 => "seventeen"
  | 18 => "eighteen"
  | 19 => "nineteen"
  | 20 => "twenty"
  | 30 => "thirty"
  | 40 => "fourty"
  | 50 => "fifty"
  | 60 => "sixty"
  | 70 => "seventy"
  | 80 => "eightty"
  | 90 => "ninety"
  | 100 => "hundred"
  | 1000 => "thousand"
  | 1000000 => "million"
  | 1000000000 => "billion"
  | 1000000000000 => "trillion"
  | 1000000000000000 => "quadrillion"
  | _ => "big number"

/-- `fn lookup` of `src/lib.rs`. -/
def lookup (num : Nat) : List String :=
  match num with
  | 0 => []
  | _ => [map num]

/-- `fn tens_and_units` of `src/lib.rs`. -/
def tens_and_units (num : Nat) : List String :=
  let num := num % 100
  if num ≤ 20 then lookup num
  else lookup (num / 10 * 10) ++ lookup (num % 10)

/-- `fn hundreds` of `src/lib.rs`. -/
def hundreds (num : Nat) : List String :=
  let num := num % 1000 / 100
  if num = 0 then []
  else lookup num ++ lookup 100

/-- `fn concat_and` of `src/lib.rs`. -/
def concat_and (v1 v2 : List String) : List String :=
  if v2.length = 0 then v1
  else if v1.length = 0 then v2
  else v1 ++ ["and"] ++ v2

/-- `fn one_to_999` of `src/lib.rs`. -/
def one_to_999 (num : Nat) : List String :=
  concat_and (hundreds num) (tens_and_units num)

/-- `fn jillions` of `src/lib.rs`. -/
def jillions (num : Nat) (scale : Nat) : List String :=
  let num := num % (scale * 1000) / scale
  if num = 0 then []
  else one_to_999 num ++ lookup scale

/-- `pub fn shortscale` of `src/lib.rs`. -/
def shortscale (num : Nat) : String :=
  if num ≤ 20 ∨ num > 999999999999999999 then map num
  else
    let vec :=
      (jillions num 1000000000000000 ++ jillions num 1000000000000 ++
        jillions num 1000000000 ++ jillions num 1000000 ++
        jillions num 1000 ++ hundreds num)
    let vec := concat_and vec (tens_and_units num)
    Shortscale.join_sep " " vec

end Lib

open Shortscale

/-! ### Word inventory

`smallWords` collects every word that a 0–999 group rendering can emit
(including the "and" separator); `bigWords` collects the five scale words. -/

def smallWords : List String :=
  ["zero", "one", "two", "three", "four", "five", "six", "seven", "eight",
   "nine", "ten", "eleven", "twelve", "thirteen", "fourteen", "fifteen",
   "sixteen", "seventeen", "eighteen", "nineteen", "twenty", "thirty",
   "fourty", "fifty", "sixty", "seventy", "eighty", "ninety", "hundred",
   "and"]

def bigWords : List String :=
  ["thousand", "million", "billion", "trillion", "quadrillion"]

def allWords : List String := smallWords ++ bigWords

/-! ### Generic helpers -/

theorem all_below (p : Nat → Bool) (N : Nat)
    (h : (List.range N).all p = true) : ∀ k, k < N → p k = true :=
  fun k hk => List.all_eq_true.mp h k (List.mem_range.mpr hk)

theorem str_eq_empty_iff (s : String) : s = "" ↔ s.data = [] := by
  constructor
  · intro h; rw [h]
  · intro h; exact String.ext h

theorem str_ne_empty_iff_length (s : String) : s ≠ "" ↔ 0 < s.length := by
  constructor
  · intro hne
    have hd : s.data ≠ [] := fun h => hne (String.ext h)
    show 0 < s.data.length
    cases h : s.data with
    | nil => exact absurd h hd
    | cons a t => simp
  · intro hpos he
    rw [he] at hpos
    simp at hpos

theorem str_append_assoc (a b c : String) : a ++ b ++ c = a ++ (b ++ c) := by
  apply String.ext
  simp [String.data_append, List.append_assoc]

/-! ### Facts about `join_sep` -/

theorem join_sep_nil (sep : String) : join_sep sep [] = "" := rfl

theorem join_sep_single (sep : String) (w : String) : join_sep sep [w] = w := rfl

theorem join_sep_cons₂ (sep w y : String) (l : List String) :
    join_sep sep (w :: y :: l) = w ++ sep ++ join_sep sep (y :: l) := rfl

theorem join_sep_length_pos (v : List String)
    (hw : ∀ w ∈ v, w ≠ "") (hv : v ≠ []) : 0 < (join_sep " " v).length := by
  match v with
  | [] => exact absurd rfl hv
  | [w] =>
    rw [join_sep_single]
    exact (str_ne_empty_iff_length w).mp (hw w (by simp))
  | w :: y :: l =>
    rw [join_sep_cons₂, String.length_append, String.length_append]
    have := (str_ne_empty_iff_length w).mp (hw w (by simp))
    omega

theorem join_sep_append (a b : List String) (ha : a ≠ []) (hb : b ≠ []) :
    join_sep " " (a ++ b) = join_sep " " a ++ " " ++ join_sep " " b := by
  induction a with
  | nil => exact absurd rfl ha
  | cons x t ih =>
    match t, b with
    | [], y :: bt => rfl
    | z :: t2, b =>
      have ihz := ih (by simp)
      calc join_sep " " ((x :: z :: t2) ++ b)
          = x ++ " " ++ join_sep " " ((z :: t2) ++ b) := rfl
        _ = x ++ " " ++ (join_sep " " (z :: t2) ++ " " ++ join_sep " " b) := by
              rw [ihz]
        _ = (x ++ " " ++ join_sep " " (z :: t2)) ++ " " ++ join_sep " " b := by
              apply String.ext
              simp [String.data_append, List.append_assoc]
        _ = join_sep " " (x :: z :: t2) ++ " " ++ join_sep " " b := rfl

/-! ### Facts about `lookup`, `tens_and_units`, `hundreds` -/

theorem lookup_of_ne_zero (num : Nat) (h : num ≠ 0) : lookup num = [map num] := by
  cases num with
  | zero => exact absurd rfl h
  | succ k => rfl

theorem lookup_zero : lookup 0 = [] := rfl

theorem tens_and_units_nil_iff (num : Nat) :
    tens_and_units num = [] ↔ num % 100 = 0 := by
  unfold tens_and_units
  by_cases h : num % 100 ≤ 20
  · rw [if_pos h]
    constructor
    · intro he
      by_contra hne
      rw [lookup_of_ne_zero _ hne] at he
      exact List.cons_ne_nil _ _ he
    · intro h0; rw [h0]; rfl
  · rw [if_neg h]
    have h10 : num % 100 / 10 * 10 ≠ 0 := by omega
    rw [lookup_of_ne_zero _ h10]
    constructor
    · intro he; exact absurd he (by simp)
    · intro h0; omega

theorem hundreds_nil_iff (num : Nat) :
    hundreds num = [] ↔ num / 100 % 10 = 0 := by
  unfold hundreds
  by_cases h : num / 100 % 10 = 0
  · rw [if_pos h]; simp [h]
  · rw [if_neg h]
    rw [lookup_of_ne_zero _ h]
    simp [h]

theorem concat_and_eq (v1 v2 : List String) :
    concat_and v1 v2 =
      v1 ++ (if v2 ≠ [] ∧ v1 ≠ [] then ["and"] else []) ++ v2 := by
  unfold concat_and
  by_cases h2 : v2.length = 0
  · rw [if_pos h2]
    have : v2 = [] := List.length_eq_zero.mp h2
    subst this
    simp
  · rw [if_neg h2]
    have hv2 : v2 ≠ [] := fun h => h2 (by rw [h]; rfl)
    by_cases h1 : v1.length = 0
    · rw [if_pos h1]
      have : v1 = [] := List.length_eq_zero.mp h1
      subst this
      simp
    · rw [if_neg h1]
      have hv1 : v1 ≠ [] := fun h => h1 (by rw [h]; rfl)
      simp [hv1, hv2]

theorem one_to_999_eq (num : Nat) :
    one_to_999 num =
      hundreds num ++
        (if num % 100 ≠ 0 ∧ hundreds num ≠ [] then ["and"] else []) ++
        tens_and_units num := by
  rw [one_to_999, concat_and_eq]
  congr 2
  by_cases h : num % 100 = 0
  · rw [if_neg, if_neg]
    · simp [h]
    · intro hc
      exact hc.1 ((tens_and_units_nil_iff num).mpr h)
  · by_cases hh : hundreds num = []
    · rw [if_neg, if_neg] <;> simp [hh]
    · rw [if_pos, if_pos]
      · exact ⟨h, hh⟩
      · exact ⟨fun he => h ((tens_and_units_nil_iff num).mp he), hh⟩

/-! ### `shortscale_vec_push` agrees with `shortscale_vec_concat` -/

theorem vec_push_tens_and_units_eq (v : List String) (num : Nat)
    (aw : Bool) :
    vec_push_tens_and_units v num aw =
      v ++ (if num % 100 = 0 then []
            else (if aw then ["and"] else []) ++ tens_and_units num) := by
  unfold vec_push_tens_and_units tens_and_units
  by_cases h0 : num % 100 = 0
  · rw [if_pos h0, if_pos h0]; simp
  · rw [if_neg h0, if_neg h0]
    by_cases h20 : 1 ≤ num % 100 ∧ num % 100 ≤ 20
    · rw [if_pos h20, if_pos h20.2, lookup_of_ne_zero _ h0]
      cases aw <;> simp
    · rw [if_neg h20]
      have h21 : ¬ num % 100 ≤ 20 := by omega
      rw [if_neg h21]
      have h10 : num % 100 / 10 * 10 ≠ 0 := by omega
      rw [lookup_of_ne_zero _ h10]
      by_cases hu : num % 100 % 10 = 0
      · rw [if_pos hu, hu, lookup_zero]
        cases aw <;> simp
      · rw [if_neg hu, lookup_of_ne_zero _ hu]
        cases aw <;> simp

theorem vec_push_hundreds_eq (v : List String) (num : Nat) :
    vec_push_hundreds v num = v ++ hundreds num := by
  unfold vec_push_hundreds hundreds
  by_cases h : num / 100 % 10 = 0
  · rw [if_pos h, if_pos h]; simp
  · rw [if_neg h, if_neg h, lookup_of_ne_zero _ h]
    rfl

theorem vec_push_scale_eq (v : List String) (num : Nat) (t : Nat)
    (ht : t ≠ 0) :
    vec_push_scale v num t = v ++ scale num t := by
  unfold vec_push_scale scale
  by_cases h : num / t % 1000 = 0
  · rw [if_pos h, if_pos h]; simp
  · rw [if_neg h, if_neg h]
    simp only []
    rw [vec_push_hundreds_eq, vec_push_tens_and_units_eq, one_to_999,
      concat_and_eq, lookup_of_ne_zero _ ht]
    set g := num / t % 1000 with hgdef
    by_cases h0 : g % 100 = 0
    · have htu0 : tens_and_units g = [] := (tens_and_units_nil_iff g).mpr h0
      simp [h0, htu0, List.append_assoc]
    · have htu : tens_and_units g ≠ [] :=
        fun he => h0 ((tens_and_units_nil_iff g).mp he)
      rcases Nat.eq_zero_or_pos (g / 100 % 10) with hd | hd
      · have hh : hundreds g = [] := (hundreds_nil_iff g).mpr hd
        have haw : decide (g / 100 % 10 > 0) = false := by
          rw [hd]; rfl
        simp [h0, htu, hh, haw, List.append_assoc]
      · have hh : hundreds g ≠ [] := by
          rw [Ne, hundreds_nil_iff]; omega
        have haw : decide (g / 100 % 10 > 0) = true := decide_eq_true hd
        simp [h0, htu, hh, haw, List.append_assoc]

theorem vec_push_eq_concat (num : Nat) :
    shortscale_vec_push num = shortscale_vec_concat num := by
  unfold shortscale_vec_push shortscale_vec_concat
  by_cases hg : num ≤ 20 ∨ num > 999999999999999999
  · rw [if_pos hg, if_pos hg]
  · rw [if_neg hg, if_neg hg]
    simp only []
    rw [vec_push_scale_eq _ _ _ (by norm_num), vec_push_scale_eq _ _ _ (by norm_num),
      vec_push_scale_eq _ _ _ (by norm_num), vec_push_scale_eq _ _ _ (by norm_num),
      vec_push_scale_eq _ _ _ (by norm_num), vec_push_hundreds_eq,
      vec_push_tens_and_units_eq, concat_and_eq]
    simp only [List.nil_append]
    by_cases h0 : num % 100 = 0
    · have htu0 : tens_and_units num = [] := (tens_and_units_nil_iff num).mpr h0
      simp [h0, htu0, List.append_assoc]
    · have htu : tens_and_units num ≠ [] :=
        fun he => h0 ((tens_and_units_nil_iff num).mp he)
      by_cases hA0 : scale num 1000000000000000 ++ scale num 1000000000000 ++
          scale num 1000000000 ++ scale num 1000000 ++ scale num 1000 ++
          hundreds num = []
      · have hparts := hA0
        simp only [List.append_eq_nil] at hparts
        obtain ⟨⟨⟨⟨⟨h1, h2⟩, h3⟩, h4⟩, h5⟩, h6⟩ := hparts
        simp [h0, htu, h1, h2, h3, h4, h5, h6]
      · have hlp : 0 < (scale num 1000000000000000 ++ scale num 1000000000000 ++
            scale num 1000000000 ++ scale num 1000000 ++ scale num 1000 ++
            hundreds num).length := List.length_pos.mpr hA0
        have hc2 : scale num 1000000000000000 = [] → scale num 1000000000000 = [] →
            scale num 1000000000 = [] → scale num 1000000 = [] →
            scale num 1000 = [] → ¬hundreds num = [] := by
          intro a1 a2 a3 a4 a5 a6
          exact hA0 (by rw [a1, a2, a3, a4, a5, a6]; rfl)
        have hc1 : 0 < (scale num 1000000000000000).length ∨
            0 < (scale num 1000000000000).length ∨
            0 < (scale num 1000000000).length ∨
            0 < (scale num 1000000).length ∨ 0 < (scale num 1000).length ∨
            0 < (hundreds num).length := by
          by_contra hc
          push_neg at hc
          obtain ⟨b1, b2, b3, b4, b5, b6⟩ := hc
          apply hA0
          have e1 := List.length_eq_zero.mp (Nat.le_zero.mp b1)
          have e2 := List.length_eq_zero.mp (Nat.le_zero.mp b2)
          have e3 := List.length_eq_zero.mp (Nat.le_zero.mp b3)
          have e4 := List.length_eq_zero.mp (Nat.le_zero.mp b4)
          have e5 := List.length_eq_zero.mp (Nat.le_zero.mp b5)
          have e6 := List.length_eq_zero.mp (Nat.le_zero.mp b6)
          rw [e1, e2, e3, e4, e5, e6]; rfl
        simp [h0, htu, hc1, List.append_assoc, if_pos hc2]

/-! ### Word membership: every emitted word comes from the tables -/

theorem map_ne_empty (k : Nat) : map k ≠ "" := by
  unfold map
  split <;> decide

theorem mem_tens_and_units (num : Nat) :
    ∀ w ∈ tens_and_units num, w ∈ smallWords := by
  have h100 : num % 100 < 100 := Nat.mod_lt _ (by norm_num)
  have hmm : num % 100 % 100 = num % 100 := by omega
  have heq : tens_and_units num = tens_and_units (num % 100) := by
    unfold tens_and_units
    rw [hmm]
  rw [heq]
  intro w hw
  have hall : ∀ k, k < 100 →
      ((tens_and_units k).all (fun w => decide (w ∈ smallWords))) = true :=
    all_below _ 100 (by decide)
  exact of_decide_eq_true (List.all_eq_true.mp (hall (num % 100) h100) w hw)

theorem mem_hundreds (num : Nat) : ∀ w ∈ hundreds num, w ∈ smallWords := by
  intro w hw
  unfold hundreds at hw
  by_cases h : num / 100 % 10 = 0
  · rw [if_pos h] at hw
    exact absurd hw (List.not_mem_nil w)
  · rw [if_neg h, lookup_of_ne_zero _ h] at hw
    have hd : num / 100 % 10 < 10 := Nat.mod_lt _ (by norm_num)
    have hall : ∀ k, k < 10 → (decide (map k ∈ smallWords)) = true :=
      all_below _ 10 (by decide)
    rcases List.mem_append.mp hw with h1 | h2
    · rw [List.mem_singleton.mp h1]
      exact of_decide_eq_true (hall _ hd)
    · have : w = map 100 := by
        have := lookup_of_ne_zero 100 (by norm_num)
        rw [this] at h2
        exact List.mem_singleton.mp h2
      rw [this]
      decide

theorem mem_one_to_999 (num : Nat) :
    ∀ w ∈ one_to_999 num, w ∈ smallWords := by
  intro w hw
  rw [one_to_999_eq] at hw
  rcases List.mem_append.mp hw with h1 | h2
  · rcases List.mem_append.mp h1 with h3 | h4
    · exact mem_hundreds num w h3
    · have : w = "and" := by
        by_cases hc : num % 100 ≠ 0 ∧ hundreds num ≠ []
        · rw [if_pos hc] at h4
          exact List.mem_singleton.mp h4
        · rw [if_neg hc] at h4
          exact absurd h4 (List.not_mem_nil w)
      rw [this]; decide
  · exact mem_tens_and_units num w h2

theorem mem_scale (num t : Nat) :
    ∀ w ∈ scale num t, w ∈ smallWords ∨ w = map t := by
  intro w hw
  unfold scale at hw
  by_cases h : num / t % 1000 = 0
  · rw [if_pos h] at hw
    exact absurd hw (List.not_mem_nil w)
  · rw [if_neg h] at hw
    rcases List.mem_append.mp hw with h1 | h2
    · exact Or.inl (mem_one_to_999 _ w h1)
    · right
      rcases Nat.eq_zero_or_pos t with ht | ht
      · rw [ht] at h2
        exact absurd h2 (List.not_mem_nil w)
      · rw [lookup_of_ne_zero t (by omega)] at h2
        exact List.mem_singleton.mp h2

theorem small_ne_empty (w : String) (h : w ∈ smallWords) : w ≠ "" := by
  have hall : smallWords.all (fun w => decide (w ≠ "")) = true := by decide
  exact of_decide_eq_true (List.all_eq_true.mp hall w h)

/-! ### The String builder refines the Vec builder -/

theorem push_word_join (v : List String) (w : String)
    (hv : ∀ u ∈ v, u ≠ "") :
    push_word (join_sep " " v) w = join_sep " " (v ++ [w]) := by
  cases v with
  | nil =>
    unfold push_word
    rw [join_sep_nil, if_neg (by decide), List.nil_append, join_sep_single]
    apply String.ext
    simp [String.data_append]
  | cons x t =>
    unfold push_word
    rw [if_pos (join_sep_length_pos _ hv (List.cons_ne_nil x t)),
      join_sep_append (x :: t) [w] (List.cons_ne_nil x t) (List.cons_ne_nil w []),
      join_sep_single]

theorem all_ne_append (v : List String) (w : String)
    (hv : ∀ u ∈ v, u ≠ "") (hw : w ≠ "") :
    ∀ u ∈ v ++ [w], u ≠ "" := by
  intro u hu
  rcases List.mem_append.mp hu with h1 | h2
  · exact hv u h1
  · rw [List.mem_singleton.mp h2]
    exact hw

theorem push_tens_and_units_join (v : List String) (num : Nat) (aw : Bool)
    (hv : ∀ u ∈ v, u ≠ "") :
    push_tens_and_units (join_sep " " v) num aw =
      join_sep " " (vec_push_tens_and_units v num aw) := by
  unfold push_tens_and_units vec_push_tens_and_units
  by_cases h0 : num % 100 = 0
  · rw [if_pos h0, if_pos h0]
  · rw [if_neg h0, if_neg h0]
    simp only []
    have hstep : (if aw then push_word (join_sep " " v) "and"
        else join_sep " " v) =
        join_sep " " (if aw then v ++ ["and"] else v) := by
      cases aw with
      | false => rfl
      | true => exact push_word_join v "and" hv
    have hv1 : ∀ u ∈ (if aw then v ++ ["and"] else v), u ≠ "" := by
      cases aw with
      | false => exact hv
      | true => exact all_ne_append v "and" hv (by decide)
    rw [hstep]
    by_cases h20 : 1 ≤ num % 100 ∧ num % 100 ≤ 20
    · rw [if_pos h20, if_pos h20]
      exact push_word_join _ _ hv1
    · rw [if_neg h20, if_neg h20]
      rw [push_word_join _ _ hv1]
      have hv2 : ∀ u ∈ (if aw then v ++ ["and"] else v) ++
          [map (num % 100 / 10 * 10)], u ≠ "" :=
        all_ne_append _ _ hv1 (map_ne_empty _)
      by_cases hu : num % 100 % 10 = 0
      · rw [if_pos hu, if_pos hu]
      · rw [if_neg hu, if_neg hu]
        exact push_word_join _ _ hv2

theorem push_hundreds_join (v : List String) (num : Nat)
    (hv : ∀ u ∈ v, u ≠ "") :
    push_hundreds (join_sep " " v) num =
      join_sep " " (vec_push_hundreds v num) := by
  unfold push_hundreds vec_push_hundreds
  by_cases h : num / 100 % 10 = 0
  · rw [if_pos h, if_pos h]
  · rw [if_neg h, if_neg h]
    rw [push_word_join _ _ hv,
      push_word_join _ _ (all_ne_append _ _ hv (map_ne_empty _))]
    congr 1
    simp

theorem all_ne_vec_tens (v : List String) (num : Nat) (aw : Bool)
    (hv : ∀ u ∈ v, u ≠ "") :
    ∀ u ∈ vec_push_tens_and_units v num aw, u ≠ "" := by
  intro u hu
  rw [vec_push_tens_and_units_eq] at hu
  rcases List.mem_append.mp hu with h1 | h2
  · exact hv u h1
  · by_cases h0 : num % 100 = 0
    · rw [if_pos h0] at h2
      exact absurd h2 (List.not_mem_nil u)
    · rw [if_neg h0] at h2
      rcases List.mem_append.mp h2 with h3 | h4
      · cases aw with
        | false => exact absurd h3 (List.not_mem_nil u)
        | true =>
          simp at h3
          rw [h3]
          decide
      · exact small_ne_empty u (mem_tens_and_units num u h4)

theorem all_ne_vec_hundreds (v : List String) (num : Nat)
    (hv : ∀ u ∈ v, u ≠ "") :
    ∀ u ∈ vec_push_hundreds v num, u ≠ "" := by
  intro u hu
  rw [vec_push_hundreds_eq] at hu
  rcases List.mem_append.mp hu with h1 | h2
  · exact hv u h1
  · exact small_ne_empty u (mem_hundreds num u h2)

theorem all_ne_vec_scale (v : List String) (num t : Nat) (ht : t ≠ 0)
    (hv : ∀ u ∈ v, u ≠ "") :
    ∀ u ∈ vec_push_scale v num t, u ≠ "" := by
  intro u hu
  rw [vec_push_scale_eq _ _ _ ht] at hu
  rcases List.mem_append.mp hu with h1 | h2
  · exact hv u h1
  · rcases mem_scale num t u h2 with h3 | h4
    · exact small_ne_empty u h3
    · rw [h4]
      exact map_ne_empty t

theorem push_scale_join (v : List String) (num t : Nat)
    (hv : ∀ u ∈ v, u ≠ "") :
    push_scale (join_sep " " v) num t =
      join_sep " " (vec_push_scale v num t) := by
  unfold push_scale vec_push_scale
  by_cases h : num / t % 1000 = 0
  · rw [if_pos h, if_pos h]
  · rw [if_neg h, if_neg h]
    simp only []
    rw [push_hundreds_join _ _ hv]
    have hv1 := all_ne_vec_hundreds v (num / t % 1000) hv
    rw [push_tens_and_units_join _ _ _ hv1]
    exact push_word_join _ _
      (all_ne_vec_tens _ _ _ hv1)

theorem shortscale_eq_vec_push (num : Nat) :
    shortscale num = shortscale_vec_push num := by
  unfold shortscale shortscale_vec_push
  by_cases hg : num ≤ 20 ∨ num > 999999999999999999
  · rw [if_pos hg, if_pos hg]
  · rw [if_neg hg, if_neg hg]
    simp only []
    have hv0 : ∀ u ∈ ([] : List String), u ≠ "" := by simp
    have e1 : push_scale "" num 1000000000000000 =
        join_sep " " (vec_push_scale [] num 1000000000000000) :=
      push_scale_join [] num 1000000000000000 hv0
    have hv1 := all_ne_vec_scale [] num 1000000000000000 (by norm_num) hv0
    rw [e1, push_scale_join _ _ _ hv1]
    have hv2 := all_ne_vec_scale _ num 1000000000000 (by norm_num) hv1
    rw [push_scale_join _ _ _ hv2]
    have hv3 := all_ne_vec_scale _ num 1000000000 (by norm_num) hv2
    rw [push_scale_join _ _ _ hv3]
    have hv4 := all_ne_vec_scale _ num 1000000 (by norm_num) hv3
    rw [push_scale_join _ _ _ hv4]
    have hv5 := all_ne_vec_scale _ num 1000 (by norm_num) hv4
    rw [push_hundreds_join _ _ hv5]
    have hv6 := all_ne_vec_hundreds _ num hv5
    rw [push_tens_and_units_join _ _ _ hv6]
    congr 2
    generalize hV : vec_push_hundreds (vec_push_scale (vec_push_scale
      (vec_push_scale (vec_push_scale (vec_push_scale [] num
      1000000000000000) num 1000000000000) num 1000000000) num 1000000) num
      1000) num = V at hv6
    cases V with
    | nil => rfl
    | cons x t =>
      rw [decide_eq_true (join_sep_length_pos _ hv6 (List.cons_ne_nil x t)),
        decide_eq_true (by simp : (x :: t).length > 0)]

/-! ### The String-join variant agrees with the Vec-concatenation variant -/

theorem lookup_word_eq (num : Nat) :
    lookup_word num = join_sep " " (lookup num) := by
  cases num with
  | zero => rfl
  | succ k => rfl

theorem lookup_word_of_ne (num : Nat) (h : num ≠ 0) :
    lookup_word num = map num := by
  cases num with
  | zero => exact absurd rfl h
  | succ k => rfl

theorem concat_and_nil_left (v : List String) : concat_and [] v = v := by
  unfold concat_and
  by_cases h : v.length = 0
  · rw [if_pos h]
    exact (List.length_eq_zero.mp h).symm
  · rw [if_neg h, if_pos (show ([] : List String).length = 0 from rfl)]

theorem concat_and_nil_right (v : List String) : concat_and v [] = v := by
  unfold concat_and
  rw [if_pos (show ([] : List String).length = 0 from rfl)]

theorem join_sep_and (a b : List String) (ha : a ≠ []) (hb : b ≠ []) :
    join_sep " " (a ++ ["and"] ++ b) =
      join_sep " " a ++ " and " ++ join_sep " " b := by
  rw [List.append_assoc, join_sep_append a (["and"] ++ b) ha (by simp)]
  have hb2 : join_sep " " (["and"] ++ b) = "and" ++ " " ++ join_sep " " b := by
    cases b with
    | nil => exact absurd rfl hb
    | cons x t => rfl
  rw [hb2]
  apply String.ext
  have h1 : (" and " : String).data = ' ' :: 'a' :: 'n' :: 'd' :: ' ' :: [] := rfl
  have h2 : (" " : String).data = ' ' :: [] := rfl
  have h3 : ("and" : String).data = 'a' :: 'n' :: 'd' :: [] := rfl
  simp [String.data_append, h1, h2, h3]

theorem tens_and_units_words_eq (num : Nat) :
    tens_and_units_words num = join_sep " " (tens_and_units num) := by
  unfold tens_and_units_words tens_and_units
  simp only []
  by_cases ht0 : num % 100 / 10 * 10 = 0
  · rw [if_pos ht0]
    have hr : num % 100 ≤ 20 := by omega
    have hu : num % 100 % 10 = num % 100 := by omega
    rw [if_pos hr, hu, lookup_word_eq]
  · rw [if_neg ht0]
    by_cases ht10 : num % 100 / 10 * 10 = 10
    · rw [if_pos ht10]
      have hr : num % 100 ≤ 20 := by omega
      rw [if_pos hr, lookup_word_eq]
    · rw [if_neg ht10]
      by_cases hu0 : num % 100 % 10 = 0
      · rw [if_pos hu0]
        by_cases hr : num % 100 ≤ 20
        · have h20 : num % 100 = 20 := by omega
          have he : num % 100 / 10 * 10 = num % 100 := by rw [h20]
          rw [if_pos hr, he, lookup_word_eq]
        · rw [if_neg hr, hu0, lookup_zero, List.append_nil, lookup_word_eq]
      · rw [if_neg hu0]
        have hr : ¬ num % 100 ≤ 20 := by omega
        rw [if_neg hr, lookup_of_ne_zero _ ht0, lookup_of_ne_zero _ hu0,
          lookup_word_of_ne _ ht0, lookup_word_of_ne _ hu0]
        rfl

theorem hundreds_words_eq (num : Nat) :
    hundreds_words num = join_sep " " (hundreds num) := by
  unfold hundreds_words hundreds
  by_cases h : num / 100 % 10 = 0
  · rw [if_pos h, if_pos h, h]
    rfl
  · rw [if_neg h, if_neg h, lookup_of_ne_zero _ h,
      lookup_word_of_ne _ h]
    rfl

theorem all_ne_tens_and_units (num : Nat) :
    ∀ u ∈ tens_and_units num, u ≠ "" :=
  fun u hu => small_ne_empty u (mem_tens_and_units num u hu)

theorem all_ne_hundreds (num : Nat) :
    ∀ u ∈ hundreds num, u ≠ "" :=
  fun u hu => small_ne_empty u (mem_hundreds num u hu)

theorem all_ne_one_to_999 (num : Nat) :
    ∀ u ∈ one_to_999 num, u ≠ "" :=
  fun u hu => small_ne_empty u (mem_one_to_999 num u hu)

theorem all_ne_scale (num t : Nat) :
    ∀ u ∈ scale num t, u ≠ "" := by
  intro u hu
  rcases mem_scale num t u hu with h1 | h2
  · exact small_ne_empty u h1
  · rw [h2]
    exact map_ne_empty t

theorem all_ne_app (v w : List String)
    (hv : ∀ u ∈ v, u ≠ "") (hw : ∀ u ∈ w, u ≠ "") :
    ∀ u ∈ v ++ w, u ≠ "" := by
  intro u hu
  rcases List.mem_append.mp hu with h1 | h2
  · exact hv u h1
  · exact hw u h2

theorem one_to_999_words_eq (num : Nat) :
    one_to_999_words num = join_sep " " (one_to_999 num) := by
  unfold one_to_999_words one_to_999
  simp only []
  rw [hundreds_words_eq, tens_and_units_words_eq]
  by_cases hh : hundreds num = []
  · rw [hh, join_sep_nil,
      if_pos (show ("" : String).length = 0 from rfl), concat_and_nil_left]
  · have hhl : 0 < (join_sep " " (hundreds num)).length :=
      join_sep_length_pos _ (all_ne_hundreds num) hh
    rw [if_neg (by omega)]
    by_cases htu : tens_and_units num = []
    · rw [htu, join_sep_nil,
        if_pos (show ("" : String).length = 0 from rfl), concat_and_nil_right]
    · have htul : 0 < (join_sep " " (tens_and_units num)).length :=
        join_sep_length_pos _ (all_ne_tens_and_units num) htu
      rw [if_neg (by omega), concat_and_eq, if_pos ⟨htu, hh⟩,
        join_sep_and _ _ hh htu]

theorem one_to_999_ne_nil (g : Nat) (h1 : g ≠ 0) (h2 : g < 1000) :
    one_to_999 g ≠ [] := by
  rw [one_to_999_eq]
  intro he
  simp only [List.append_eq_nil] at he
  obtain ⟨⟨hh, _⟩, htens⟩ := he
  rw [hundreds_nil_iff] at hh
  rw [tens_and_units_nil_iff] at htens
  omega

theorem scale_words_eq (num t : Nat) (ht : t ≠ 0) :
    scale_words num t = join_sep " " (scale num t) := by
  unfold scale_words scale
  by_cases h : num / t % 1000 = 0
  · rw [if_pos h, if_pos h, h]
    rfl
  · rw [if_neg h, if_neg h, one_to_999_words_eq, lookup_word_of_ne _ ht,
      lookup_of_ne_zero _ ht]
    have hne : one_to_999 (num / t % 1000) ≠ [] :=
      one_to_999_ne_nil _ h (Nat.mod_lt _ (by norm_num))
    rw [join_sep_append _ [map t] hne (by simp), join_sep_single]

theorem join_words_sep_space (v w : List String)
    (hv : ∀ u ∈ v, u ≠ "") (hw : ∀ u ∈ w, u ≠ "") :
    join_words (join_sep " " v) " " (join_sep " " w) =
      join_sep " " (v ++ w) := by
  unfold join_words
  by_cases hwn : w = []
  · rw [hwn, join_sep_nil,
      if_pos (show ("" : String).length = 0 from rfl), List.append_nil]
  · have hwl : 0 < (join_sep " " w).length := join_sep_length_pos _ hw hwn
    rw [if_neg (by omega)]
    by_cases hvn : v = []
    · rw [hvn, join_sep_nil,
        if_pos (show ("" : String).length = 0 from rfl), List.nil_append]
      apply String.ext
      simp [String.data_append]
    · have hvl : 0 < (join_sep " " v).length := join_sep_length_pos _ hv hvn
      rw [if_neg (by omega), join_sep_append _ _ hvn hwn]

theorem join_words_and (v w : List String)
    (hv : ∀ u ∈ v, u ≠ "") (hw : ∀ u ∈ w, u ≠ "") :
    join_words (join_sep " " v) " and " (join_sep " " w) =
      join_sep " " (concat_and v w) := by
  unfold join_words
  by_cases hwn : w = []
  · rw [hwn, join_sep_nil,
      if_pos (show ("" : String).length = 0 from rfl), concat_and_nil_right]
  · have hwl : 0 < (join_sep " " w).length := join_sep_length_pos _ hw hwn
    rw [if_neg (by omega)]
    by_cases hvn : v = []
    · rw [hvn, join_sep_nil,
        if_pos (show ("" : String).length = 0 from rfl), concat_and_nil_left]
      apply String.ext
      simp [String.data_append]
    · have hvl : 0 < (join_sep " " v).length := join_sep_length_pos _ hv hvn
      rw [if_neg (by omega), concat_and_eq, if_pos ⟨hwn, hvn⟩,
        join_sep_and _ _ hvn hwn]

theorem string_join_eq_concat (num : Nat) :
    shortscale_string_join num = shortscale_vec_concat num := by
  unfold shortscale_string_join shortscale_vec_concat
  by_cases hg : num ≤ 20 ∨ num > 999999999999999999
  · rw [if_pos hg, if_pos hg]
  · rw [if_neg hg, if_neg hg]
    simp only []
    rw [scale_words_eq _ _ (by norm_num), scale_words_eq _ _ (by norm_num),
      scale_words_eq _ _ (by norm_num), scale_words_eq _ _ (by norm_num),
      scale_words_eq _ _ (by norm_num), hundreds_words_eq,
      tens_and_units_words_eq]
    have h0 : ("" : String) = join_sep " " [] := rfl
    rw [h0]
    have a1 : ∀ u ∈ ([] : List String), u ≠ "" := by simp
    have a2 := all_ne_scale num 1000000000000000
    have a3 := all_ne_scale num 1000000000000
    have a4 := all_ne_scale num 1000000000
    have a5 := all_ne_scale num 1000000
    have a6 := all_ne_scale num 1000
    have a7 := all_ne_hundreds num
    rw [join_words_sep_space _ _ a1 a2, List.nil_append,
      join_words_sep_space _ _ a2 a3,
      join_words_sep_space _ _ (all_ne_app _ _ a2 a3) a4,
      join_words_sep_space _ _ (all_ne_app _ _ (all_ne_app _ _ a2 a3) a4) a5,
      join_words_sep_space _ _
        (all_ne_app _ _ (all_ne_app _ _ (all_ne_app _ _ a2 a3) a4) a5) a6,
      join_words_sep_space _ _
        (all_ne_app _ _
          (all_ne_app _ _ (all_ne_app _ _ (all_ne_app _ _ a2 a3) a4) a5) a6)
        a7,
      join_words_and _ _
        (all_ne_app _ _
          (all_ne_app _ _
            (all_ne_app _ _ (all_ne_app _ _ (all_ne_app _ _ a2 a3) a4) a5)
            a6) a7)
        (all_ne_tens_and_units num)]

/-! ### Normal form: the word list of an in-range rendering -/

/-- The word list that all four implementations render for an in-range
input, before joining with single spaces. -/
def number_words (num : Nat) : List String :=
  concat_and
    (scale num 1000000000000000 ++ scale num 1000000000000 ++
      scale num 1000000000 ++ scale num 1000000 ++ scale num 1000 ++
      hundreds num)
    (tens_and_units num)

theorem vec_concat_in_range (num : Nat)
    (h : ¬(num ≤ 20 ∨ num > 999999999999999999)) :
    shortscale_vec_concat num = join_sep " " (number_words num) := by
  unfold shortscale_vec_concat number_words
  rw [if_neg h]

theorem shortscale_eq_join (num : Nat) (h1 : 20 < num)
    (h2 : num ≤ 999999999999999999) :
    shortscale num = join_sep " " (number_words num) := by
  rw [shortscale_eq_vec_push, vec_push_eq_concat,
    vec_concat_in_range num (by omega)]

theorem mem_number_words (num : Nat) :
    ∀ w ∈ number_words num, w ∈ allWords := by
  intro w hw
  unfold number_words at hw
  rw [concat_and_eq] at hw
  have hsmall : w ∈ smallWords → w ∈ allWords := by
    intro h
    unfold allWords
    exact List.mem_append.mpr (Or.inl h)
  have hscale : ∀ t : Nat, map t ∈ allWords → w ∈ scale num t →
      w ∈ allWords := by
    intro t hmt hmem
    rcases mem_scale num t w hmem with hs | hs
    · exact hsmall hs
    · rw [hs]; exact hmt
  simp only [List.mem_append] at hw
  rcases hw with (((((((hs1 | hs2) | hs3) | hs4) | hs5) | hh) | hopt) | htens)
  · exact hscale _ (by decide) hs1
  · exact hscale _ (by decide) hs2
  · exact hscale _ (by decide) hs3
  · exact hscale _ (by decide) hs4
  · exact hscale _ (by decide) hs5
  · exact hsmall (mem_hundreds num w hh)
  · by_cases hc : tens_and_units num ≠ [] ∧
        scale num 1000000000000000 ++ scale num 1000000000000 ++
          scale num 1000000000 ++ scale num 1000000 ++ scale num 1000 ++
          hundreds num ≠ []
    · rw [if_pos hc] at hopt
      rw [List.mem_singleton.mp hopt]
      decide
    · rw [if_neg hc] at hopt
      exact absurd hopt (List.not_mem_nil w)
  · exact hsmall (mem_tens_and_units num w htens)

theorem number_words_eq (num : Nat) :
    number_words num =
      scale num 1000000000000000 ++ scale num 1000000000000 ++
        scale num 1000000000 ++ scale num 1000000 ++ scale num 1000 ++
        hundreds num ++
        (if num % 100 ≠ 0 ∧
            scale num 1000000000000000 ++ scale num 1000000000000 ++
              scale num 1000000000 ++ scale num 1000000 ++ scale num 1000 ++
              hundreds num ≠ [] then ["and"] else []) ++
      tens_and_units num := by
  unfold number_words
  rw [concat_and_eq]
  have hiff : (tens_and_units num ≠ [] ∧
      scale num 1000000000000000 ++ scale num 1000000000000 ++
        scale num 1000000000 ++ scale num 1000000 ++ scale num 1000 ++
        hundreds num ≠ []) ↔ (num % 100 ≠ 0 ∧
      scale num 1000000000000000 ++ scale num 1000000000000 ++
        scale num 1000000000 ++ scale num 1000000 ++ scale num 1000 ++
        hundreds num ≠ []) := by
    rw [Ne, tens_and_units_nil_iff]
  simp only [hiff]

/-! ### Out-of-range inputs -/

theorem map_big (num : Nat) (h : num > 999999999999999999) :
    map num = "(big number)" := by
  unfold map
  split <;> first | rfl | omega

theorem shortscale_big (num : Nat) (h : num > 999999999999999999) :
    shortscale num = "(big number)" := by
  unfold shortscale
  rw [if_pos (Or.inr h), map_big num h]

/-! ### Spacing discipline -/

/-- Adjacent characters are never both spaces. -/
def noDouble (a b : Char) : Prop := ¬(a = ' ' ∧ b = ' ')

theorem allWords_good : ∀ w ∈ allWords, w.data ≠ [] ∧ ' ' ∉ w.data := by
  have hall : allWords.all
      (fun w => decide (w.data ≠ []) && decide (' ' ∉ w.data)) = true := by
    decide
  intro w hw
  have h := List.all_eq_true.mp hall w hw
  simpa using h

theorem chain_no_space (l : List Char) (h : ' ' ∉ l) :
    List.Chain' noDouble l := by
  induction l with
  | nil => exact List.chain'_nil
  | cons a t ih =>
    cases t with
    | nil => exact List.chain'_singleton a
    | cons b t2 =>
      rw [List.chain'_cons]
      refine ⟨fun hc => h (hc.1 ▸ List.mem_cons_self a _), ?_⟩
      exact ih (fun hm => h (List.mem_cons_of_mem a hm))

theorem head_ne_space (l : List Char) (h : ' ' ∉ l) : l.head? ≠ some ' ' := by
  cases l with
  | nil => simp
  | cons a t =>
    simp only [List.head?_cons, Ne, Option.some.injEq]
    intro hc
    exact h (hc ▸ List.mem_cons_self a t)

theorem getLast_ne_space (l : List Char) (h : ' ' ∉ l) :
    l.getLast? ≠ some ' ' := by
  intro hc
  exact h (List.mem_of_mem_getLast? (Option.mem_def.mpr hc))

theorem join_space_props (v : List String)
    (hv : ∀ w ∈ v, w.data ≠ [] ∧ ' ' ∉ w.data) :
    (join_sep " " v).data.head? ≠ some ' ' ∧
      (join_sep " " v).data.getLast? ≠ some ' ' ∧
      List.Chain' noDouble (join_sep " " v).data := by
  induction v with
  | nil => exact ⟨by simp [join_sep_nil], by simp [join_sep_nil],
      List.chain'_nil⟩
  | cons w t ih =>
    cases t with
    | nil =>
      rw [join_sep_single]
      obtain ⟨h1, h2⟩ := hv w (by simp)
      exact ⟨head_ne_space _ h2, getLast_ne_space _ h2, chain_no_space _ h2⟩
    | cons y t2 =>
      have hvt : ∀ u ∈ y :: t2, u.data ≠ [] ∧ ' ' ∉ u.data :=
        fun u hu => hv u (List.mem_cons_of_mem w hu)
      obtain ⟨ihh, ihl, ihc⟩ := ih hvt
      obtain ⟨hwne, hwsp⟩ := hv w (by simp)
      have hrest : (join_sep " " (y :: t2)).data ≠ [] := by
        intro he
        have : join_sep " " (y :: t2) = "" := String.ext he
        have hpos := join_sep_length_pos (y :: t2)
          (fun u hu => fun hc => (hvt u hu).1 (by simp [hc]))
          (List.cons_ne_nil y t2)
        rw [this] at hpos
        simp at hpos
      have hdata : (join_sep " " (w :: y :: t2)).data =
          w.data ++ ' ' :: (join_sep " " (y :: t2)).data := by
        rw [join_sep_cons₂]
        have hsp : (" " : String).data = [' '] := rfl
        simp [String.data_append, hsp]
      rw [hdata]
      refine ⟨?_, ?_, ?_⟩
      · cases hwd : w.data with
        | nil => exact absurd hwd hwne
        | cons a ta =>
          simp only [List.cons_append, List.head?_cons, Ne, Option.some.injEq]
          intro hc
          exact hwsp (by rw [hwd, hc]; exact List.mem_cons_self ' ' ta)
      · rw [List.getLast?_append_of_ne_nil _ (List.cons_ne_nil ' ' _)]
        cases hre : (join_sep " " (y :: t2)).data with
        | nil => exact absurd hre hrest
        | cons r rs =>
          rw [List.getLast?_cons_cons]
          rw [hre] at ihl
          exact ihl
      · rw [List.chain'_append]
        refine ⟨chain_no_space _ hwsp, ?_, ?_⟩
        · cases hre : (join_sep " " (y :: t2)).data with
          | nil => exact absurd hre hrest
          | cons r rs =>
            rw [List.chain'_cons]
            constructor
            · intro hc
              rw [hre] at ihh
              simp [hc.2] at ihh
            · rw [hre] at ihc
              exact ihc
        · intro x hx c hc
          simp only [List.head?_cons, Option.mem_def, Option.some.injEq] at hc
          intro hcon
          exact hwsp (hcon.1 ▸ List.mem_of_mem_getLast? hx)

/-! ### Length bounds -/

theorem tens_and_units_mod (num : Nat) :
    tens_and_units num = tens_and_units (num % 100) := by
  unfold tens_and_units
  rw [show num % 100 % 100 = num % 100 from by omega]

theorem hundreds_digit (num : Nat) :
    hundreds num = hundreds (num / 100 % 10 * 100) := by
  unfold hundreds
  rw [show num / 100 % 10 * 100 / 100 % 10 = num / 100 % 10 from by omega]

theorem len_join_append (a b : List String) :
    (join_sep " " (a ++ b)).length ≤
      (join_sep " " a).length + 1 + (join_sep " " b).length := by
  by_cases ha : a = []
  · subst ha
    simp [join_sep_nil]
  · by_cases hb : b = []
    · subst hb
      simp [join_sep_nil, List.append_nil]
    · rw [join_sep_append a b ha hb, String.length_append,
        String.length_append]
      have h1 : (" " : String).length = 1 := rfl
      omega

theorem len_tens_and_units (num : Nat) :
    (join_sep " " (tens_and_units num)).length ≤ 13 := by
  rw [tens_and_units_mod]
  have h100 : num % 100 < 100 := Nat.mod_lt _ (by norm_num)
  exact of_decide_eq_true (all_below
    (fun k => decide ((join_sep " " (tens_and_units k)).length ≤ 13)) 100
    (by decide) _ h100)

theorem len_hundreds (num : Nat) :
    (join_sep " " (hundreds num)).length ≤ 13 := by
  rw [hundreds_digit]
  have hd : num / 100 % 10 < 10 := Nat.mod_lt _ (by norm_num)
  exact of_decide_eq_true (all_below
    (fun k => decide ((join_sep " " (hundreds (k * 100))).length ≤ 13)) 10
    (by decide) _ hd)

theorem len_one_to_999 (num : Nat) :
    (join_sep " " (one_to_999 num)).length ≤ 31 := by
  rw [one_to_999_eq]
  have h1 := len_join_append
    (hundreds num ++
      (if num % 100 ≠ 0 ∧ hundreds num ≠ [] then ["and"] else []))
    (tens_and_units num)
  have h2 := len_join_append (hundreds num)
    (if num % 100 ≠ 0 ∧ hundreds num ≠ [] then ["and"] else [])
  have h3 := len_hundreds num
  have h4 := len_tens_and_units num
  have h5 : (join_sep " "
      (if num % 100 ≠ 0 ∧ hundreds num ≠ [] then ["and"] else [])).length ≤
      3 := by
    by_cases hc : num % 100 ≠ 0 ∧ hundreds num ≠ []
    · rw [if_pos hc]
      decide
    · rw [if_neg hc]
      decide
  omega

theorem len_lookup (t : Nat) :
    (join_sep " " (lookup t)).length ≤ (map t).length := by
  cases t with
  | zero => simp [lookup_zero, join_sep_nil]
  | succ k =>
    rw [lookup_of_ne_zero _ (Nat.succ_ne_zero k), join_sep_single]

theorem len_scale (num t : Nat) :
    (join_sep " " (scale num t)).length ≤ 32 + (map t).length := by
  unfold scale
  by_cases h : num / t % 1000 = 0
  · rw [if_pos h]
    simp [join_sep_nil]
  · rw [if_neg h]
    have h1 := len_join_append (one_to_999 (num / t % 1000)) (lookup t)
    have h2 := len_one_to_999 (num / t % 1000)
    have h3 := len_lookup t
    omega

theorem len_number_words (num : Nat) :
    (join_sep " " (number_words num)).length ≤ 237 := by
  rw [number_words_eq]
  have e1 : (map 1000000000000000).length = 11 := rfl
  have e2 : (map 1000000000000).length = 8 := rfl
  have e3 : (map 1000000000).length = 7 := rfl
  have e4 : (map 1000000).length = 7 := rfl
  have e5 : (map 1000).length = 8 := rfl
  have s1 := len_scale num 1000000000000000
  have s2 := len_scale num 1000000000000
  have s3 := len_scale num 1000000000
  have s4 := len_scale num 1000000
  have s5 := len_scale num 1000
  rw [e1] at s1
  rw [e2] at s2
  rw [e3] at s3
  rw [e4] at s4
  rw [e5] at s5
  have b1 := len_join_append (scale num 1000000000000000)
    (scale num 1000000000000)
  have b2 := len_join_append
    (scale num 1000000000000000 ++ scale num 1000000000000)
    (scale num 1000000000)
  have b3 := len_join_append
    (scale num 1000000000000000 ++ scale num 1000000000000 ++
      scale num 1000000000) (scale num 1000000)
  have b4 := len_join_append
    (scale num 1000000000000000 ++ scale num 1000000000000 ++
      scale num 1000000000 ++ scale num 1000000) (scale num 1000)
  have b5 := len_join_append
    (scale num 1000000000000000 ++ scale num 1000000000000 ++
      scale num 1000000000 ++ scale num 1000000 ++ scale num 1000)
    (hundreds num)
  set A := scale num 1000000000000000 ++ scale num 1000000000000 ++
    scale num 1000000000 ++ scale num 1000000 ++ scale num 1000 ++
    hundreds num with hA
  have b6 := len_join_append A
    (if num % 100 ≠ 0 ∧ A ≠ [] then ["and"] else [])
  have b7 := len_join_append
    (A ++ (if num % 100 ≠ 0 ∧ A ≠ [] then ["and"] else []))
    (tens_and_units num)
  have h5 : (join_sep " "
      (if num % 100 ≠ 0 ∧ A ≠ [] then ["and"] else [])).length ≤ 3 := by
    by_cases hc : num % 100 ≠ 0 ∧ A ≠ []
    · rw [if_pos hc]
      decide
    · rw [if_neg hc]
      decide
  have hh := len_hundreds num
  have ht := len_tens_and_units num
  omega

/-! ### UTF-8 byte size agrees with character count on ASCII output -/

theorem utf8_go_nil : String.utf8ByteSize.go [] = 0 := rfl

theorem utf8_go_cons (c : Char) (cs : List Char) :
    String.utf8ByteSize.go (c :: cs) =
      String.utf8ByteSize.go cs + c.utf8Size := rfl

theorem utf8_eq_length (l : List Char) (h : ∀ c ∈ l, c.utf8Size = 1) :
    String.utf8ByteSize ⟨l⟩ = l.length := by
  induction l with
  | nil => rfl
  | cons c cs ih =>
    show String.utf8ByteSize.go (c :: cs) = (c :: cs).length
    rw [utf8_go_cons, h c (by simp)]
    have : String.utf8ByteSize.go cs = cs.length :=
      ih (fun x hx => h x (List.mem_cons_of_mem c hx))
    rw [this, List.length_cons]

theorem join_chars (v : List String) (c : Char)
    (hc : c ∈ (join_sep " " v).data) : c = ' ' ∨ ∃ w ∈ v, c ∈ w.data := by
  induction v with
  | nil => exact absurd hc (List.not_mem_nil c)
  | cons w t ih =>
    cases t with
    | nil =>
      rw [join_sep_single] at hc
      exact Or.inr ⟨w, by simp, hc⟩
    | cons y t2 =>
      rw [join_sep_cons₂] at hc
      have hsp : (" " : String).data = [' '] := rfl
      simp only [String.data_append, hsp, List.mem_append,
        List.mem_singleton] at hc
      rcases hc with (h1 | h2) | h3
      · exact Or.inr ⟨w, by simp, h1⟩
      · exact Or.inl h2
      · rcases ih h3 with h4 | ⟨u, hu, hcu⟩
        · exact Or.inl h4
        · exact Or.inr ⟨u, List.mem_cons_of_mem w hu, hcu⟩

theorem allWords_ascii :
    ∀ w ∈ allWords, ∀ c ∈ w.data, c.utf8Size = 1 := by
  have hall : allWords.all
      (fun w => w.data.all (fun c => decide (c.utf8Size = 1))) = true := by
    decide
  intro w hw c hc
  exact of_decide_eq_true
    (List.all_eq_true.mp (List.all_eq_true.mp hall w hw) c hc)

theorem shortscale_ascii (num : Nat) :
    ∀ c ∈ (shortscale num).data, c.utf8Size = 1 := by
  by_cases h1 : num ≤ 20
  · have he : shortscale num = map num := by
      unfold shortscale
      rw [if_pos (Or.inl h1)]
    rw [he]
    intro c hc
    have hall : ∀ k, k < 21 →
        ((map k).data.all (fun c => decide (c.utf8Size = 1))) = true :=
      all_below _ 21 (by decide)
    exact of_decide_eq_true
      (List.all_eq_true.mp (hall num (by omega)) c hc)
  · by_cases h2 : num ≤ 999999999999999999
    · rw [shortscale_eq_join num (by omega) h2]
      intro c hc
      rcases join_chars _ c hc with h3 | ⟨w, hw, hcw⟩
      · rw [h3]
        decide
      · exact allWords_ascii w (mem_number_words num w hw) c hcw
    · rw [shortscale_big num (by omega)]
      intro c hc
      have : ("(big number)" : String).data.all
          (fun c => decide (c.utf8Size = 1)) = true := by decide
      exact of_decide_eq_true (List.all_eq_true.mp this c hc)

theorem utf8_size_eq_length (s : String)
    (h : ∀ c ∈ s.data, c.utf8Size = 1) : s.utf8ByteSize = s.length := by
  cases s with
  | mk l => exact utf8_eq_length l h

/-! ### A Bool check for the no-double-space property -/

def noDoubleB : List Char → Bool
  | c1 :: c2 :: rest => (!(c1 == ' ' && c2 == ' ')) && noDoubleB (c2 :: rest)
  | _ => true

theorem chain_of_noDoubleB (l : List Char) (h : noDoubleB l = true) :
    List.Chain' noDouble l := by
  induction l with
  | nil => exact List.chain'_nil
  | cons a t ih =>
    cases t with
    | nil => exact List.chain'_singleton a
    | cons b t2 =>
      rw [List.chain'_cons]
      unfold noDoubleB at h
      rcases Bool.and_eq_true_iff.mp h with ⟨ha, hb⟩
      constructor
      · intro hc
        rw [hc.1, hc.2] at ha
        simp at ha
      · exact ih hb

/-! ### Scale-word counting -/

theorem count_of_small (tw : String) (hsm : tw ∉ smallWords)
    (l : List String) (hl : ∀ w ∈ l, w ∈ smallWords) : l.count tw = 0 :=
  List.count_eq_zero_of_not_mem (fun hm => hsm (hl _ hm))

theorem count_scale_self (num t : Nat) (ht : t ≠ 0)
    (hsm : map t ∉ smallWords) :
    (scale num t).count (map t) = if num / t % 1000 = 0 then 0 else 1 := by
  unfold scale
  by_cases h : num / t % 1000 = 0
  · rw [if_pos h, if_pos h]
    rfl
  · rw [if_neg h, if_neg h, List.count_append,
      count_of_small _ hsm _ (mem_one_to_999 _),
      lookup_of_ne_zero _ ht]
    simp

theorem count_scale_other (num t : Nat) (tw : String)
    (hsm : tw ∉ smallWords) (hne : tw ≠ map t) :
    (scale num t).count tw = 0 := by
  unfold scale
  by_cases h : num / t % 1000 = 0
  · rw [if_pos h]
    rfl
  · rw [if_neg h, List.count_append,
      count_of_small _ hsm _ (mem_one_to_999 _)]
    have : (lookup t).count tw = 0 := by
      cases t with
      | zero => rfl
      | succ k =>
        rw [lookup_of_ne_zero _ (Nat.succ_ne_zero k)]
        exact List.count_eq_zero_of_not_mem (by simp [hne])
    rw [this]

theorem count_number_words (num t : Nat)
    (hmem : t = 1000000000000000 ∨ t = 1000000000000 ∨ t = 1000000000 ∨
      t = 1000000 ∨ t = 1000) :
    (number_words num).count (map t) =
      if num / t % 1000 = 0 then 0 else 1 := by
  have hsm : map t ∉ smallWords := by
    rcases hmem with h | h | h | h | h <;> subst h <;> decide
  have hand : map t ≠ "and" := fun he => hsm (by rw [he]; decide)
  have ch : (hundreds num).count (map t) = 0 :=
    count_of_small _ hsm _ (mem_hundreds num)
  have ct : (tens_and_units num).count (map t) = 0 :=
    count_of_small _ hsm _ (mem_tens_and_units num)
  have copt : ∀ p : Prop, ∀ hp : Decidable p,
      (if p then ["and"] else []).count (map t) = 0 := by
    intro p hp
    by_cases hc : p
    · rw [if_pos hc]
      exact List.count_eq_zero_of_not_mem (by simp [hand])
    · rw [if_neg hc]
      rfl
  rw [number_words_eq]
  simp only [List.count_append]
  rcases hmem with h | h | h | h | h <;> subst h
  · rw [count_scale_self num 1000000000000000 (by norm_num) hsm,
      count_scale_other num 1000000000000 _ hsm (by decide),
      count_scale_other num 1000000000 _ hsm (by decide),
      count_scale_other num 1000000 _ hsm (by decide),
      count_scale_other num 1000 _ hsm (by decide), ch, ct, copt]
    simp
  · rw [count_scale_self num 1000000000000 (by norm_num) hsm,
      count_scale_other num 1000000000000000 _ hsm (by decide),
      count_scale_other num 1000000000 _ hsm (by decide),
      count_scale_other num 1000000 _ hsm (by decide),
      count_scale_other num 1000 _ hsm (by decide), ch, ct, copt]
    simp
  · rw [count_scale_self num 1000000000 (by norm_num) hsm,
      count_scale_other num 1000000000000000 _ hsm (by decide),
      count_scale_other num 1000000000000 _ hsm (by decide),
      count_scale_other num 1000000 _ hsm (by decide),
      count_scale_other num 1000 _ hsm (by decide), ch, ct, copt]
    simp
  · rw [count_scale_self num 1000000 (by norm_num) hsm,
      count_scale_other num 1000000000000000 _ hsm (by decide),
      count_scale_other num 1000000000000 _ hsm (by decide),
      count_scale_other num 1000000000 _ hsm (by decide),
      count_scale_other num 1000 _ hsm (by decide), ch, ct, copt]
    simp
  · rw [count_scale_self num 1000 (by norm_num) hsm,
      count_scale_other num 1000000000000000 _ hsm (by decide),
      count_scale_other num 1000000000000 _ hsm (by decide),
      count_scale_other num 1000000000 _ hsm (by decide),
      count_scale_other num 1000000 _ hsm (by decide), ch, ct, copt]
    simp

/-! ### Guard behaviour of every public entry point -/

theorem shortscale_small (num : Nat) (h : num ≤ 20) :
    shortscale num = map num := by
  unfold shortscale
  rw [if_pos (Or.inl h)]

theorem vec_push_big (num : Nat) (h : num > 999999999999999999) :
    shortscale_vec_push num = "(big number)" := by
  unfold shortscale_vec_push
  rw [if_pos (Or.inr h), map_big num h]

theorem vec_concat_big (num : Nat) (h : num > 999999999999999999) :
    shortscale_vec_concat num = "(big number)" := by
  unfold shortscale_vec_concat
  rw [if_pos (Or.inr h), map_big num h]

theorem string_join_big (num : Nat) (h : num > 999999999999999999) :
    shortscale_string_join num = "(big number)" := by
  unfold shortscale_string_join
  rw [if_pos (Or.inr h), map_big num h]

theorem lib_map_big (num : Nat) (h : num > 999999999999999999) :
    Lib.map num = "big number" := by
  unfold Lib.map
  split <;> first | rfl | omega

theorem lib_shortscale_big (num : Nat) (h : num > 999999999999999999) :
    Lib.shortscale num = "big number" := by
  unfold Lib.shortscale
  rw [if_pos (Or.inr h), lib_map_big num h]

theorem map_small_good : ∀ k, k < 21 →
    ((map k).data ≠ [] ∧ ' ' ∉ (map k).data) := by
  intro k hk
  have h := all_below
    (fun k => decide ((map k).data ≠ []) && decide (' ' ∉ (map k).data)) 21
    (by decide) k hk
  rcases Bool.and_eq_true_iff.mp h with ⟨h1, h2⟩
  exact ⟨of_decide_eq_true h1, of_decide_eq_true h2⟩

theorem shortscale_len_le (n : Nat) : (shortscale n).length ≤ 238 := by
  by_cases h1 : n ≤ 20
  · rw [shortscale_small n h1]
    have h := all_below (fun k => decide ((map k).length ≤ 238)) 21
      (by decide) n (by omega)
    exact of_decide_eq_true h
  · by_cases h2 : n ≤ 999999999999999999
    · rw [shortscale_eq_join n (by omega) h2]
      have := len_number_words n
      omega
    · rw [shortscale_big n (by omega)]
      decide

/-! ## Claims -/

/-- C1: "and" is inserted immediately before a tens/units rendering iff the
tens/units remainder is non-zero and a hundreds-word of the same group was
already emitted — or, for the final top-level tens/units, any word at all
was already emitted; with the spec's four examples. -/
theorem claim_C1 :
    (∀ g : Nat, one_to_999 g =
      hundreds g ++
        (if g % 100 ≠ 0 ∧ hundreds g ≠ [] then ["and"] else []) ++
        tens_and_units g)
    ∧ (∀ n : Nat, 20 < n → n ≤ 999999999999999999 →
        shortscale n = join_sep " "
          ((scale n 1000000000000000 ++ scale n 1000000000000 ++
              scale n 1000000000 ++ scale n 1000000 ++ scale n 1000 ++
              hundreds n) ++
            (if n % 100 ≠ 0 ∧
                (scale n 1000000000000000 ++ scale n 1000000000000 ++
                  scale n 1000000000 ++ scale n 1000000 ++ scale n 1000 ++
                  hundreds n) ≠ [] then ["and"] else []) ++
            tens_and_units n))
    ∧ shortscale 111 = "one hundred and eleven"
    ∧ shortscale 2300 = "two thousand three hundred"
    ∧ shortscale 2301 = "two thousand three hundred and one"
    ∧ shortscale 30020 = "thirty thousand and twenty" := by
  refine ⟨one_to_999_eq, ?_, by decide, by decide, by decide, by decide⟩
  intro n h1 h2
  rw [shortscale_eq_join n h1 h2, number_words_eq]

/-- C1 witness at 2301. -/
theorem claim_C1_witness :
    shortscale 2301 = join_sep " "
      ((scale 2301 1000000000000000 ++ scale 2301 1000000000000 ++
          scale 2301 1000000000 ++ scale 2301 1000000 ++ scale 2301 1000 ++
          hundreds 2301) ++
        (if 2301 % 100 ≠ 0 ∧
            (scale 2301 1000000000000000 ++ scale 2301 1000000000000 ++
              scale 2301 1000000000 ++ scale 2301 1000000 ++
              scale 2301 1000 ++ hundreds 2301) ≠ [] then ["and"] else []) ++
        tens_and_units 2301) :=
  claim_C1.2.1 2301 (by decide) (by decide)

/-- C2: for every n in [0, 20], `shortscale n` is the direct atom word from
the word table. -/
theorem claim_C2 :
    (∀ n : Nat, n ≤ 20 → shortscale n = map n)
    ∧ shortscale 0 = "zero"
    ∧ shortscale 11 = "eleven"
    ∧ shortscale 20 = "twenty" :=
  ⟨fun n h => shortscale_small n h, by decide, by decide, by decide⟩

/-- C2 witness at 7. -/
theorem claim_C2_witness : shortscale 7 = map 7 :=
  claim_C2.1 7 (by decide)

/-- C3: `shortscale` is total (the embedding is a total function) and every
input above 999999999999999999 yields the sentinel string, not an error. -/
theorem claim_C3 :
    ∀ n : Nat, 999999999999999999 < n →
      shortscale n = "(big number)" :=
  fun n h => shortscale_big n h

/-- C3 witness at 1999999999999999999 (the repo's own test input). -/
theorem claim_C3_witness :
    shortscale 1999999999999999999 = "(big number)" :=
  claim_C3 1999999999999999999 (by norm_num)

/-- C4: the spec's literal end-to-end examples. -/
theorem claim_C4 :
    shortscale 420000999015 =
      "four hundred and twenty billion nine hundred and ninety nine thousand and fifteen"
    ∧ shortscale 1002301 = "one million two thousand three hundred and one"
    ∧ shortscale 999999999999999999 =
      "nine hundred and ninety nine quadrillion nine hundred and ninety nine trillion nine hundred and ninety nine billion nine hundred and ninety nine million nine hundred and ninety nine thousand nine hundred and ninety nine" :=
  ⟨by decide, by decide, by decide⟩

/-- C5: the five scales are processed in strictly descending order with
group value (num / scale) % 1000; a zero group contributes nothing, a
non-zero group is rendered followed by exactly one occurrence of the scale
word. -/
theorem claim_C5 :
    ∀ n : Nat, 20 < n → n ≤ 999999999999999999 →
      (shortscale n = join_sep " " (number_words n)
        ∧ number_words n =
          scale n 1000000000000000 ++ scale n 1000000000000 ++
            scale n 1000000000 ++ scale n 1000000 ++ scale n 1000 ++
            (hundreds n ++
              (if n % 100 ≠ 0 ∧
                  scale n 1000000000000000 ++ scale n 1000000000000 ++
                    scale n 1000000000 ++ scale n 1000000 ++ scale n 1000 ++
                    hundreds n ≠ [] then ["and"] else []) ++
              tens_and_units n))
      ∧ (∀ t : Nat,
          (t = 1000000000000000 ∨ t = 1000000000000 ∨ t = 1000000000 ∨
            t = 1000000 ∨ t = 1000) →
          scale n t = (if n / t % 1000 = 0 then []
            else one_to_999 (n / t % 1000) ++ [map t])
          ∧ (number_words n).count (map t) =
            (if n / t % 1000 = 0 then 0 else 1)) := by
  intro n h1 h2
  refine ⟨⟨shortscale_eq_join n h1 h2, ?_⟩, ?_⟩
  · rw [number_words_eq]
    simp [List.append_assoc]
  · intro t ht
    refine ⟨?_, count_number_words n t ht⟩
    have ht0 : t ≠ 0 := by
      rcases ht with h | h | h | h | h <;> subst h <;> norm_num
    unfold scale
    by_cases hg : n / t % 1000 = 0
    · rw [if_pos hg, if_pos hg]
    · rw [if_neg hg, if_neg hg, lookup_of_ne_zero _ ht0]

/-- C5 witness at 420000999015 and the billion scale. -/
theorem claim_C5_witness :
    shortscale 420000999015 = join_sep " " (number_words 420000999015)
    ∧ (number_words 420000999015).count (map 1000000000) =
      (if 420000999015 / 1000000000 % 1000 = 0 then 0 else 1) :=
  ⟨(claim_C5 420000999015 (by decide) (by decide)).1.1,
    ((claim_C5 420000999015 (by decide) (by decide)).2 1000000000
      (Or.inr (Or.inr (Or.inl rfl)))).2⟩

/-- C6: no leading space, no trailing space, and no two adjacent spaces in
any output. -/
theorem claim_C6 :
    ∀ n : Nat,
      (shortscale n).data.head? ≠ some ' '
      ∧ (shortscale n).data.getLast? ≠ some ' '
      ∧ List.Chain' noDouble (shortscale n).data := by
  intro n
  by_cases h1 : n ≤ 20
  · rw [shortscale_small n h1]
    obtain ⟨hne, hsp⟩ := map_small_good n (by omega)
    exact ⟨head_ne_space _ hsp, getLast_ne_space _ hsp, chain_no_space _ hsp⟩
  · by_cases h2 : n ≤ 999999999999999999
    · rw [shortscale_eq_join n (by omega) h2]
      exact join_space_props _
        (fun w hw => allWords_good w (mem_number_words n w hw))
    · rw [shortscale_big n (by omega)]
      exact ⟨by decide, by decide, chain_of_noDoubleB _ (by decide)⟩

/-- C7: all four builder variants compute the same function. -/
theorem claim_C7 :
    ∀ n : Nat,
      shortscale n = shortscale_vec_push n
      ∧ shortscale n = shortscale_vec_concat n
      ∧ shortscale n = shortscale_string_join n := by
  intro n
  refine ⟨shortscale_eq_vec_push n, ?_, ?_⟩
  · rw [shortscale_eq_vec_push, vec_push_eq_concat]
  · rw [shortscale_eq_vec_push, vec_push_eq_concat, string_join_eq_concat]

/-- C8 counterexample: the canonical table spells 40 as "fourty", not
"forty"; the lib.rs variant spells 80 as "eightty" and uses a different
sentinel than the canonical module. -/
theorem claim_C8_counterexample :
    map 40 ≠ "forty"
    ∧ map 40 = "fourty"
    ∧ Lib.map 80 = "eightty"
    ∧ Lib.shortscale 1999999999999999999 ≠
      shortscale 1999999999999999999 :=
  ⟨by decide, by decide, by decide, by decide⟩

/-- C8 (amended): the canonical module `shortscale.rs` spells 40 "fourty"
and 80 "eighty" and all four of its public entry points return the sentinel
"(big number)" for out-of-range input, while the `lib.rs` variant spells 80
"eightty" and returns the bare sentinel "big number" — the program does not
use a single consistent, correctly spelled table. -/
theorem claim_C8 :
    map 40 = "fourty"
    ∧ map 80 = "eighty"
    ∧ Lib.map 40 = "fourty"
    ∧ Lib.map 80 = "eightty"
    ∧ (∀ n : Nat, 999999999999999999 < n →
        shortscale n = "(big number)"
        ∧ shortscale_vec_push n = "(big number)"
        ∧ shortscale_vec_concat n = "(big number)"
        ∧ shortscale_string_join n = "(big number)"
        ∧ Lib.shortscale n = "big number") :=
  ⟨by decide, by decide, by decide, by decide,
    fun n h => ⟨shortscale_big n h, vec_push_big n h, vec_concat_big n h,
      string_join_big n h, lib_shortscale_big n h⟩⟩

/-- C8 witness at 1999999999999999999. -/
theorem claim_C8_witness :
    shortscale 1999999999999999999 = "(big number)"
    ∧ Lib.shortscale 1999999999999999999 = "big number" :=
  ⟨(claim_C8.2.2.2.2 1999999999999999999 (by norm_num)).1,
    (claim_C8.2.2.2.2 1999999999999999999 (by norm_num)).2.2.2.2⟩

/-- C9: the buffer-appending variant leaves the existing contents unchanged
as a prefix and appends exactly `shortscale n` (the variant is modelled
from the spec, its definition not being among the sources). -/
theorem claim_C9 :
    (∀ (s : String) (n : Nat),
      shortscale_string_writer s n = s ++ shortscale n)
    ∧ shortscale_string_writer "Hello " 0 = "Hello zero" :=
  ⟨fun s n => rfl, by decide⟩

/-- C10: every output fits in the pre-allocated 238 bytes; output is ASCII
so bytes equal characters, and the longest output, for 777777777777777777,
is 237 bytes. -/
theorem claim_C10 :
    ∀ n : Nat,
      (shortscale n).utf8ByteSize ≤ 238
      ∧ (shortscale n).utf8ByteSize = (shortscale n).length
      ∧ (shortscale 777777777777777777).utf8ByteSize = 237 := by
  intro n
  have he : (shortscale n).utf8ByteSize = (shortscale n).length :=
    utf8_size_eq_length _ (shortscale_ascii n)
  refine ⟨?_, he, by decide⟩
  rw [he]
  exact shortscale_len_le n
